import Mathlib

/-!
Verification of the Scheduled Billing Operation Dispatcher
(`gcp-billing-cli`): a shallow embedding of the Cloud Function callback
executor (`cloud-function/index.js`, `manageBilling`) and of the CLI
scheduling path (`src/index.ts`, `scheduleOperation` and the
`schedule-enable` / `schedule-disable` command actions), together with
proofs about the spec's claims.

Machine-level conventions: JavaScript strings are modelled as Lean
`String` / `List Char`; JavaScript `undefined`/`null` string values as
`Option String`; JS truthiness of a string value as "present and
non-empty".  Byte sequences (the UTF-8 form of the JSON payload) are
`List Nat` with every element `< 256`.
-/

namespace GcpBilling

/-! ## JavaScript string-value helpers -/

/-- JS truthiness of a possibly-`undefined` string value:
`undefined`, `null` and the empty string are falsy. -/
def optTruthy : Option String → Bool
  | none => false
  | some s => s ≠ ""

/-- Rendering of a possibly-`undefined` string inside a JS template
literal: `undefined` prints as the text `undefined`. -/
def jsStr : Option String → String
  | none => "undefined"
  | some s => s

/-- `String.prototype.split` restricted to a single-character separator,
on the character list: `"a:b:c".split(d)` gives `[a, b, c]`;
the empty string splits to one empty group. -/
def splitCharList (sep : Char) : List Char → List (List Char)
  | [] => [[]]
  | c :: cs =>
    match splitCharList sep cs with
    | [] => [[]]
    | g :: gs => if c = sep then [] :: g :: gs else (c :: g) :: gs

/-- `time.split(':')` as used by `scheduleOperation`. -/
def jsSplitColon (s : String) : List String :=
  (splitCharList ':' s.data).map fun l => ⟨l⟩

/-! ## The deferred-action payload

`BillingMutationRequest` is the object serialized by `scheduleOperation`
(`JSON.stringify({ projectId: targetProjectId, billingAccountId, enable })`)
and decoded again at fire time. -/

/-- The decoded payload delivered to the callback at fire time. -/
structure BillingMutationRequest where
  projectId : String
  billingAccountId : Option String
  enable : Bool
  deriving DecidableEq, Repr

/-! ## JSON serialization (`JSON.stringify`) of the payload -/

/-- Lowercase hexadecimal digit for `n < 16`. -/
def hexDigitChar (n : Nat) : Char :=
  if n < 10 then Char.ofNat (48 + n) else Char.ofNat (87 + n)

/-- `JSON.stringify` escaping of one character of a string literal:
quote and backslash are escaped, the short control escapes
`\b \t \n \f \r` are used, any other control character becomes a
lowercase `\u00xx` escape, and everything else is emitted literally. -/
def escChar (c : Char) : List Char :=
  if c = '"' then [ '\\' , '"' ]
  else if c = '\\' then [ '\\' , '\\' ]
  else if c.toNat = 8 then [ '\\' , 'b' ]
  else if c.toNat = 9 then [ '\\' , 't' ]
  else if c.toNat = 10 then [ '\\' , 'n' ]
  else if c.toNat = 12 then [ '\\' , 'f' ]
  else if c.toNat = 13 then [ '\\' , 'r' ]
  else if c.toNat < 32 then
    [ '\\' , 'u' , '0' , '0' , hexDigitChar (c.toNat / 16), hexDigitChar (c.toNat % 16) ]
  else [c]

/-- `JSON.stringify` escaping of a whole string body. -/
def escString : List Char → List Char
  | [] => []
  | c :: cs => escChar c ++ escString cs

/-- Leading chunk of the serialized payload (up to and including the
opening quote of the `projectId` value). -/
def jOpenChunk : List Char := ( "\x7b\"projectId\":\"" ).data

/-- Chunk between the `projectId` value and the `billingAccountId`
value. -/
def jAcctChunk : List Char := ( ",\"billingAccountId\":" ).data

/-- Chunk between the `billingAccountId` value and the `enable`
value. -/
def jEnableChunk : List Char := ( ",\"enable\":" ).data

/-- `JSON.stringify({ projectId, billingAccountId, enable })` exactly as
built by `scheduleOperation`: keys in insertion order, a string or
`null` for the billing account, a boolean for `enable`. -/
def jsonStringify (m : BillingMutationRequest) : List Char :=
  jOpenChunk ++ escString m.projectId.data ++ '"' ::
    (jAcctChunk ++
      (match m.billingAccountId with
       | some b => '"' :: (escString b.data ++ [ '"' ])
       | none => ( "null" ).data) ++
      (jEnableChunk ++
        ((if m.enable then ( "true" ).data else ( "false" ).data) ++ [ '\x7d' ])))

/-! ## JSON parsing (`JSON.parse`) of the payload

The Cloud Functions framework JSON-parses the POST body before
`manageBilling` destructures it.  The parser below is `JSON.parse`
restricted to the exact shape produced by the registrar: a
general-purpose parser agrees with it on every output of
`jsonStringify`. -/

/-- Value of one hexadecimal digit (either case). -/
def hexVal (c : Char) : Option Nat :=
  let n := c.toNat
  if 48 ≤ n ∧ n ≤ 57 then some (n - 48)
  else if 97 ≤ n ∧ n ≤ 102 then some (n - 87)
  else if 65 ≤ n ∧ n ≤ 70 then some (n - 55)
  else none

/-- Consume an expected literal chunk from the front of the input,
returning the remainder. -/
def dropLead : List Char → List Char → Option (List Char)
  | [], l => some l
  | _ :: _, [] => none
  | p :: ps, c :: cs => if c = p then dropLead ps cs else none

/-- Parse the body of a JSON string literal (the opening quote already
consumed) up to and including the closing quote, resolving escapes;
returns the decoded characters and the rest of the input. -/
def parseStrBody : List Char → Option (List Char × List Char)
  | [] => none
  | c :: cs =>
    if c = '"' then some ([], cs)
    else if c = '\\' then
      match cs with
      | [] => none
      | e :: cs2 =>
        if e = '"' ∨ e = '\\' ∨ e = '/' then
          (parseStrBody cs2).map fun r => (e :: r.1, r.2)
        else if e = 'b' then (parseStrBody cs2).map fun r => (Char.ofNat 8 :: r.1, r.2)
        else if e = 't' then (parseStrBody cs2).map fun r => (Char.ofNat 9 :: r.1, r.2)
        else if e = 'n' then (parseStrBody cs2).map fun r => (Char.ofNat 10 :: r.1, r.2)
        else if e = 'f' then (parseStrBody cs2).map fun r => (Char.ofNat 12 :: r.1, r.2)
        else if e = 'r' then (parseStrBody cs2).map fun r => (Char.ofNat 13 :: r.1, r.2)
        else if e = 'u' then
          match cs2 with
          | h1 :: h2 :: h3 :: h4 :: cs3 =>
            match hexVal h1, hexVal h2, hexVal h3, hexVal h4 with
            | some v1, some v2, some v3, some v4 =>
              (parseStrBody cs3).map fun r =>
                (Char.ofNat (v1 * 4096 + v2 * 256 + v3 * 16 + v4) :: r.1, r.2)
            | _, _, _, _ => none
          | _ => none
        else none
    else (parseStrBody cs).map fun r => (c :: r.1, r.2)

/-- Parse the tail of the payload after the `billingAccountId` value:
`,"enable":` followed by a boolean and the closing brace, at the very
end of the input. -/
def parseEnableTail (l : List Char) : Option Bool :=
  if l = jEnableChunk ++ ( "true\x7d" ).data then some true
  else if l = jEnableChunk ++ ( "false\x7d" ).data then some false
  else none

/-- Parse the `billingAccountId` value (string or `null`) and the tail,
given the already-decoded project id. -/
def parseAcct (p : List Char) (l : List Char) : Option BillingMutationRequest :=
  match l with
  | [] => none
  | c :: l1 =>
    if c = '"' then
      match parseStrBody l1 with
      | none => none
      | some br => (parseEnableTail br.2).map fun en => ⟨⟨p⟩, some ⟨br.1⟩, en⟩
    else
      match dropLead ( "null" ).data (c :: l1) with
      | none => none
      | some l2 => (parseEnableTail l2).map fun en => ⟨⟨p⟩, none, en⟩

/-- `JSON.parse` on the payload shape. -/
def jsonParse (l : List Char) : Option BillingMutationRequest :=
  match dropLead jOpenChunk l with
  | none => none
  | some l1 =>
    match parseStrBody l1 with
    | none => none
    | some pr =>
      match dropLead jAcctChunk pr.2 with
      | none => none
      | some l2 => parseAcct pr.1 l2

/-! ## UTF-8 (`Buffer.from(string)`) -/

/-- UTF-8 encoding of a single scalar value, as `Buffer.from` performs
on each character of the JSON text. -/
def utf8EncodeChar (c : Char) : List Nat :=
  let n := c.toNat
  if n < 128 then [n]
  else if n < 2048 then [192 + n / 64, 128 + n % 64]
  else if n < 65536 then [224 + n / 4096, 128 + n / 64 % 64, 128 + n % 64]
  else [240 + n / 262144, 128 + n / 4096 % 64, 128 + n / 64 % 64, 128 + n % 64]

/-- UTF-8 encoding of a character list. -/
def utf8Encode : List Char → List Nat
  | [] => []
  | c :: cs => utf8EncodeChar c ++ utf8Encode cs

/-- UTF-8 decoding (the framework's byte-to-text step on the received
body). -/
def utf8Decode : List Nat → Option (List Char)
  | [] => some []
  | b :: rest =>
    if b < 128 then (utf8Decode rest).map fun cs => Char.ofNat b :: cs
    else if b < 192 then none
    else if b < 224 then
      match rest with
      | [] => none
      | b2 :: rest2 =>
        if 128 ≤ b2 ∧ b2 < 192 then
          (utf8Decode rest2).map fun cs => Char.ofNat ((b - 192) * 64 + (b2 - 128)) :: cs
        else none
    else if b < 240 then
      match rest with
      | [] => none
      | b2 :: rest2 =>
        match rest2 with
        | [] => none
        | b3 :: rest3 =>
          if (128 ≤ b2 ∧ b2 < 192) ∧ (128 ≤ b3 ∧ b3 < 192) then
            (utf8Decode rest3).map fun cs =>
              Char.ofNat ((b - 224) * 4096 + (b2 - 128) * 64 + (b3 - 128)) :: cs
          else none
    else
      match rest with
      | [] => none
      | b2 :: rest2 =>
        match rest2 with
        | [] => none
        | b3 :: rest3 =>
          match rest3 with
          | [] => none
          | b4 :: rest4 =>
            if (128 ≤ b2 ∧ b2 < 192) ∧ (128 ≤ b3 ∧ b3 < 192) ∧ (128 ≤ b4 ∧ b4 < 192) then
              (utf8Decode rest4).map fun cs =>
                Char.ofNat
                  ((b - 240) * 262144 + (b2 - 128) * 4096 + (b3 - 128) * 64 + (b4 - 128)) :: cs
            else none

/-! ## Base64 (`Buffer.prototype.toString('base64')`) -/

/-- Standard base64 alphabet. -/
def b64Char (i : Nat) : Char :=
  if i < 26 then Char.ofNat (65 + i)
  else if i < 52 then Char.ofNat (97 + (i - 26))
  else if i < 62 then Char.ofNat (48 + (i - 52))
  else if i = 62 then '+'
  else '/'

/-- Inverse of the base64 alphabet. -/
def b64Index (c : Char) : Option Nat :=
  let n := c.toNat
  if 65 ≤ n ∧ n ≤ 90 then some (n - 65)
  else if 97 ≤ n ∧ n ≤ 122 then some (n - 97 + 26)
  else if 48 ≤ n ∧ n ≤ 57 then some (n - 48 + 52)
  else if c = '+' then some 62
  else if c = '/' then some 63
  else none

/-- Base64 encoding with `=` padding, three bytes to four characters. -/
def b64Encode : List Nat → List Char
  | a :: b :: c :: rest =>
    b64Char (a / 4) :: b64Char (a % 4 * 16 + b / 16) ::
      b64Char (b % 16 * 4 + c / 64) :: b64Char (c % 64) :: b64Encode rest
  | [a, b] => [b64Char (a / 4), b64Char (a % 4 * 16 + b / 16), b64Char (b % 16 * 4), '=' ]
  | [a] => [b64Char (a / 4), b64Char (a % 4 * 16), '=' , '=' ]
  | [] => []

/-- Base64 decoding (the scheduling service's decode of the stored job
body before the HTTP POST). -/
def b64Decode : List Char → Option (List Nat)
  | c1 :: c2 :: c3 :: c4 :: rest =>
    (b64Index c1).bind fun i1 =>
      (b64Index c2).bind fun i2 =>
        if c3 = '=' then
          if c4 = '=' ∧ rest = [] then some [i1 * 4 + i2 / 16] else none
        else
          (b64Index c3).bind fun i3 =>
            if c4 = '=' then
              if rest = [] then some [i1 * 4 + i2 / 16, i2 % 16 * 16 + i3 / 4] else none
            else
              (b64Index c4).bind fun i4 =>
                (b64Decode rest).map fun r =>
                  (i1 * 4 + i2 / 16) :: (i2 % 16 * 16 + i3 / 4) :: (i3 % 4 * 64 + i4) :: r
  | [] => some []
  | _ => none

/-! ## The transport encoding of the payload -/

/-- The job body built by `scheduleOperation`:
`Buffer.from(JSON.stringify(payload)).toString('base64')`. -/
def encodePayload (m : BillingMutationRequest) : String :=
  ⟨b64Encode (utf8Encode (jsonStringify m))⟩

/-- The fire-time decode chain: base64 decode, UTF-8 decode, JSON
parse. -/
def decodePayload (s : String) : Option BillingMutationRequest :=
  (b64Decode s.data).bind fun bytes =>
    (utf8Decode bytes).bind fun chars => jsonParse chars

/-! ## The Job Registrar (`scheduleOperation` in `src/index.ts`)

The remote scheduling service, the spinner and the console output are
outside the embedding; `scheduleOperation` is modelled as the function
from its inputs (plus the ambient `gcloud` project id and the
`Date.now()` timestamp) to either a locally-thrown error (no network
call is made) or the `Job` value passed to `schedulerClient.createJob`
(the network call is attempted with exactly this descriptor). -/

/-- Options of the `schedule-enable` / `schedule-disable` commands. -/
structure ScheduleOptions where
  time : Option String
  cron : Option String
  timezone : Option String
  deriving DecidableEq, Repr

/-- The job descriptor handed to `schedulerClient.createJob`. -/
structure Job where
  name : String
  schedule : String
  timeZone : String
  uri : String
  httpMethod : String
  body : String
  headers : List (String × String)
  deriving DecidableEq, Repr

/-- Lines 309–317 of `scheduleOperation`: `options.cron` wins if truthy,
else `options.time` is split at `':'` and its first two pieces are
interpolated into a five-field expression, else an error is thrown. -/
def computeSchedule (options : ScheduleOptions) : Except String String :=
  if optTruthy options.cron then Except.ok (jsStr options.cron)
  else if optTruthy options.time then
    let parts := jsSplitColon (jsStr options.time)
    Except.ok (jsStr (parts.get? 1) ++ " " ++ jsStr (parts.get? 0) ++ " * * *")
  else Except.error "Either --time or --cron must be specified"

/-- `scheduleOperation(targetProjectId, billingAccountId, enable,
options, functionUrl)`, with `currentProjectId` the value read from the
gcloud config and `now` the `Date.now()` timestamp.  `Except.ok job`
means `createJob` is invoked with `job`; `Except.error` means the error
is thrown before any network call. -/
def scheduleOperation (targetProjectId : String) (billingAccountId : Option String)
    (enable : Bool) (options : ScheduleOptions) (functionUrl : String)
    (currentProjectId : String) (now : Nat) : Except String Job :=
  let parent := "projects/" ++ currentProjectId ++ "/locations/us-central1"
  let jobName := "billing-" ++ (if enable then "enable" else "disable") ++ "-" ++
    targetProjectId ++ "-" ++ toString now
  let fullJobName := parent ++ "/jobs/" ++ jobName
  (computeSchedule options).map fun schedule =>
    ⟨fullJobName, schedule, if optTruthy options.timezone then jsStr options.timezone else "UTC",
      functionUrl, "POST",
      encodePayload ⟨targetProjectId, billingAccountId, enable⟩,
      [( "Content-Type" , "application/json" )]⟩

/-- The `schedule-enable` command action (lines 419–432 of
`src/index.ts`): reject when neither `--time` nor `--cron` is given or
when `BILLING_FUNCTION_URL` is unset, then call `scheduleOperation` with
`enable = true`. -/
def scheduleEnableAction (projectId billingAccountId : String)
    (options : ScheduleOptions) (envFunctionUrl : Option String)
    (currentProjectId : String) (now : Nat) : Except String Job :=
  if ¬ optTruthy options.time ∧ ¬ optTruthy options.cron then
    Except.error "Error: Either --time or --cron must be specified"
  else if ¬ optTruthy envFunctionUrl then
    Except.error "Error: BILLING_FUNCTION_URL environment variable is not set"
  else
    scheduleOperation projectId (some billingAccountId) true options
      (jsStr envFunctionUrl) currentProjectId now

/-- The `schedule-disable` command action: same guards, `enable = false`
and a `null` billing account. -/
def scheduleDisableAction (projectId : String) (options : ScheduleOptions)
    (envFunctionUrl : Option String) (currentProjectId : String) (now : Nat) :
    Except String Job :=
  if ¬ optTruthy options.time ∧ ¬ optTruthy options.cron then
    Except.error "Error: Either --time or --cron must be specified"
  else if ¬ optTruthy envFunctionUrl then
    Except.error "Error: BILLING_FUNCTION_URL environment variable is not set"
  else
    scheduleOperation projectId none false options (jsStr envFunctionUrl) currentProjectId now

/-! ## The Callback Executor (`manageBilling` in `cloud-function/index.js`) -/

/-- JSON values appearing in the executor's response bodies. -/
inductive JVal where
  | jstr (s : String)
  | jbool (b : Bool)
  | jnull
  deriving DecidableEq, Repr

/-- The structured error signal raised by the billing SDK: a numeric
gRPC category code, a secondary reason code and a message. -/
structure BillingError where
  code : Nat
  reason : String
  message : String
  deriving DecidableEq, Repr

/-- The JSON body delivered to the callback, as destructured by
`manageBilling` (`const { projectId, billingAccountId, enable } =
req.body`); absent fields are `none`. -/
structure ReqBody where
  projectId : Option String
  billingAccountId : Option String
  enable : Bool
  deriving DecidableEq, Repr

/-- The inbound HTTP invocation. -/
structure HttpRequest where
  method : String
  contentType : Option String
  body : ReqBody
  deriving DecidableEq, Repr

/-- The HTTP response assembled through `res.set` / `res.status` /
`res.json`. -/
structure HttpResponse where
  status : Nat
  headers : List (String × String)
  body : List (String × JVal)
  deriving DecidableEq, Repr

/-- The argument of `client.updateProjectBillingInfo`. -/
structure BillingCall where
  name : String
  billingAccountName : String
  billingEnabled : Bool
  deriving DecidableEq, Repr

/-- The CORS header set unconditionally at the top of `manageBilling`. -/
def corsHeader : String × String := ( "Access-Control-Allow-Origin" , "*" )

/-- `manageBilling(req, res)`.  The billing service is a collaborator:
`billingResult` is the outcome `updateProjectBillingInfo` would return
if invoked.  The second component records that invocation (`none` when
the executor never calls the billing service). -/
def manageBilling (req : HttpRequest) (billingResult : Except BillingError Unit) :
    HttpResponse × Option BillingCall :=
  if req.method = "OPTIONS" then
    (⟨204,
      [corsHeader, ( "Access-Control-Allow-Methods" , "POST" ),
        ( "Access-Control-Allow-Headers" , "Content-Type" )], []⟩, none)
  else if req.method ≠ "POST" then
    (⟨405, [corsHeader],
      [( "error" , JVal.jstr "Method not allowed" ),
       ( "message" , JVal.jstr "Only POST requests are accepted" )]⟩, none)
  else if req.contentType ≠ some "application/json" then
    (⟨400, [corsHeader],
      [( "error" , JVal.jstr "Invalid content type" ),
       ( "message" , JVal.jstr "Content-Type must be application/json" )]⟩, none)
  else if ¬ optTruthy req.body.projectId then
    (⟨400, [corsHeader],
      [( "error" , JVal.jstr "Missing parameter" ),
       ( "message" , JVal.jstr "Project ID is required" )]⟩, none)
  else if req.body.enable ∧ ¬ optTruthy req.body.billingAccountId then
    (⟨400, [corsHeader],
      [( "error" , JVal.jstr "Missing parameter" ),
       ( "message" , JVal.jstr "Billing Account ID is required when enabling billing" )]⟩,
      none)
  else
    let billingAccountName :=
      if optTruthy req.body.billingAccountId then
        "billingAccounts/" ++ jsStr req.body.billingAccountId
      else ""
    let call : BillingCall :=
      ⟨ "projects/" ++ jsStr req.body.projectId,
        if req.body.enable then billingAccountName else "",
        req.body.enable⟩
    match billingResult with
    | Except.ok _ =>
      (⟨200, [corsHeader],
        [( "success" , JVal.jbool true ),
         ( "message" , JVal.jstr ( "Successfully " ++
            (if req.body.enable then "enabled" else "disabled") ++
            " billing for project " ++ jsStr req.body.projectId) ),
         ( "projectId" , JVal.jstr (jsStr req.body.projectId) ),
         ( "billingAccountId" , JVal.jstr
            (if optTruthy req.body.billingAccountId then jsStr req.body.billingAccountId
             else "None" ) ),
         ( "enable" , JVal.jbool req.body.enable )]⟩, some call)
    | Except.error e =>
      if e.code = 7 then
        (⟨403, [corsHeader],
          [( "error" , JVal.jstr "Permission denied" ),
           ( "message" , JVal.jstr "The caller does not have required permissions" ),
           ( "details" , JVal.jstr e.message )]⟩, some call)
      else if e.code = 5 then
        (⟨404, [corsHeader],
          [( "error" , JVal.jstr "Not found" ),
           ( "message" , JVal.jstr "The specified project or billing account was not found" ),
           ( "details" , JVal.jstr e.message )]⟩, some call)
      else
        (⟨500, [corsHeader],
          [( "error" , JVal.jstr "Internal error" ),
           ( "message" , JVal.jstr "Failed to update billing" ),
           ( "details" , JVal.jstr e.message )]⟩, some call)

/-! ## The CLI error classifier (`handleApiError` in `src/index.ts`)

`handleApiError` prints a classification-specific remediation text; it
is modelled as the classification it selects together with the first
remediation line it prints. -/

/-- The closed error taxonomy of the spec. -/
inductive ErrorClass where
  | serviceDisabled
  | permissionDenied
  | unauthenticated
  | unknown
  deriving DecidableEq, Repr

/-- Classification branch taken by `handleApiError` (lines 103–147 of
`src/index.ts`). -/
def handleApiError (e : BillingError) : ErrorClass :=
  if e.code = 7 ∧ e.reason = "SERVICE_DISABLED" then ErrorClass.serviceDisabled
  else if e.code = 7 ∧ e.reason = "PERMISSION_DENIED" then ErrorClass.permissionDenied
  else if e.code = 16 then ErrorClass.unauthenticated
  else ErrorClass.unknown

/-- The headline remediation text printed by `handleApiError` for each
classification, from the source. -/
def remediationText : ErrorClass → String
  | ErrorClass.serviceDisabled => "Please enable the following APIs in your GCP project:"
  | ErrorClass.permissionDenied => "Required permissions:"
  | ErrorClass.unauthenticated => "Run the following command to authenticate:"
  | ErrorClass.unknown => "Error:"

/-- Numeric value of a decimal digit string (used only to state which
`HH:MM` inputs count as valid times). -/
def digitsVal (l : List Char) : Nat :=
  l.foldl (fun a c => a * 10 + (c.toNat - 48)) 0

deriving instance DecidableEq for Except

/-! ## Helper lemmas -/

theorem strData_append (a b : String) : (a ++ b).data = a.data ++ b.data := by
  cases a; cases b; rfl

theorem strMk_data (s : String) : (⟨s.data⟩ : String) = s := by
  cases s; rfl

theorem char_toNat_lt (c : Char) : c.toNat < 1114112 := by
  rcases c.valid with h | ⟨_, h2⟩
  · exact Nat.lt_trans h (by decide)
  · exact h2

theorem splitCharList_ne_nil (sep : Char) (l : List Char) : splitCharList sep l ≠ [] := by
  induction l with
  | nil => simp [splitCharList]
  | cons c cs ih =>
    simp only [splitCharList]
    cases h : splitCharList sep cs with
    | nil => simp
    | cons g gs => by_cases hc : c = sep <;> simp [hc]

theorem splitCharList_not_mem (sep : Char) (l : List Char) (h : sep ∉ l) :
    splitCharList sep l = [l] := by
  induction l with
  | nil => rfl
  | cons c cs ih =>
    have hc : ¬ c = sep := fun e => h (e ▸ List.mem_cons_self c cs)
    have hcs : sep ∉ cs := fun e => h (List.mem_cons_of_mem _ e)
    simp only [splitCharList, ih hcs]
    rw [if_neg hc]

theorem splitCharList_append_sep (sep : Char) (l1 l2 : List Char) (h : sep ∉ l1) :
    splitCharList sep (l1 ++ sep :: l2) = l1 :: splitCharList sep l2 := by
  induction l1 with
  | nil =>
    simp only [List.nil_append, splitCharList]
    cases hs : splitCharList sep l2 with
    | nil => exact absurd hs (splitCharList_ne_nil sep l2)
    | cons g gs => simp
  | cons c cs ih =>
    have hc : ¬ c = sep := fun e => h (e ▸ List.mem_cons_self c cs)
    have hcs : sep ∉ cs := fun e => h (List.mem_cons_of_mem _ e)
    simp only [List.cons_append, splitCharList]
    rw [show cs.append (sep :: l2) = cs ++ sep :: l2 from rfl, ih hcs]
    simp [hc]

theorem jsSplitColon_pair (h m : String) (hh : ':' ∉ h.data) (hm : ':' ∉ m.data) :
    jsSplitColon (h ++ ":" ++ m) = [h, m] := by
  unfold jsSplitColon
  have hd : (h ++ ":" ++ m).data = h.data ++ ':' :: m.data := by
    rw [strData_append, strData_append]
    simp
  rw [hd, splitCharList_append_sep _ _ _ hh, splitCharList_not_mem _ _ hm]
  simp [strMk_data]

theorem isDigit_not_colon {l : List Char} (h : l.all Char.isDigit = true) : ':' ∉ l := by
  intro hmem
  have := List.all_eq_true.mp h _ hmem
  exact absurd this (by decide)

theorem computeSchedule_cron (c : String) (hc : c ≠ "") (t tz : Option String) :
    computeSchedule ⟨t, some c, tz⟩ = Except.ok c := by
  simp [computeSchedule, optTruthy, hc, jsStr]

theorem computeSchedule_time (t : String) (ht : t ≠ "") (tz : Option String) :
    computeSchedule ⟨some t, none, tz⟩ =
      Except.ok (jsStr ((jsSplitColon t).get? 1) ++ " " ++
        jsStr ((jsSplitColon t).get? 0) ++ " * * *") := by
  simp [computeSchedule, optTruthy, ht, jsStr]

theorem computeSchedule_neither (opts : ScheduleOptions)
    (h1 : optTruthy opts.time = false) (h2 : optTruthy opts.cron = false) :
    computeSchedule opts = Except.error "Either --time or --cron must be specified" := by
  simp [computeSchedule, h1, h2]

/-! ## Claim theorems for the scheduling path -/

/--
C2 counterexample: the out-of-range time `"99:99"` is not rejected —
`scheduleOperation` splits it at `':'`, embeds the pieces in the
recurrence, and invokes `createJob` (the result is `Except.ok`, meaning
the network call is attempted; the claim says it must fail with
`InvalidRequest` before any network call).
-/
theorem claim_c2_counterexample :
    (scheduleOperation "p1" none false ⟨some "99:99" , none, none⟩ "https://fn" "cur"
        0).map Job.schedule = Except.ok "99 99 * * *" := by
  decide

/--
C2 amended: the scheduling path performs no validation of the absolute
time string.  Any non-empty `--time` value (however malformed:
non-numeric, out of range, or missing the `':'` separator) is split at
`':'` and its first two pieces — with the text `undefined` substituted
for a missing piece — are embedded directly into the five-field
recurrence, and the job registration network call is still attempted
(`Except.ok`), never rejected locally.
-/
theorem claim_c2_amended (p : String) (b : Option String) (e : Bool) (t : String)
    (ht : t ≠ "" ) (tz : Option String) (u cp : String) (n : Nat) :
    (scheduleOperation p b e ⟨some t, none, tz⟩ u cp n).map Job.schedule =
      Except.ok (jsStr ((jsSplitColon t).get? 1) ++ " " ++
        jsStr ((jsSplitColon t).get? 0) ++ " * * *") := by
  simp [scheduleOperation, computeSchedule_time t ht tz, Except.map]

/-- Witness for the amended C2 at the separator-less input `"0900"`. -/
theorem claim_c2_amended_witness :
    (scheduleOperation "p1" none false ⟨some "0900" , none, none⟩ "https://fn" "cur"
        0).map Job.schedule = Except.ok "undefined 0900 * * *" := by
  have h := claim_c2_amended "p1" none false "0900" (by decide) none "https://fn" "cur" 0
  exact h.trans (by decide)

/--
C3 counterexample: a `schedule-enable` invocation supplying BOTH an
absolute time and a raw recurrence expression is not rejected: the raw
expression silently wins and the job is registered (`Except.ok`),
contradicting the claim that this fails with `InvalidRequest` before
any network call.
-/
theorem claim_c3_counterexample :
    (scheduleEnableAction "p1" "b1" ⟨some "09:00" , some "0 18 * * 1-5" , none⟩
        (some "https://fn" ) "cur" 0).map Job.schedule =
      Except.ok "0 18 * * 1-5" := by
  decide

/--
C3 amended: when both an absolute time and a raw recurrence expression
are present, the raw expression silently takes precedence and the job
IS registered; only when neither is present does the scheduling path
fail before any network call — with the missing-flags error both at
the command-action guard and inside `scheduleOperation`.
-/
theorem claim_c3_amended :
    (∀ (p : String) (b : Option String) (e : Bool) (t : Option String) (c : String)
        (tz : Option String) (u cp : String) (n : Nat), c ≠ "" →
      (scheduleOperation p b e ⟨t, some c, tz⟩ u cp n).map Job.schedule = Except.ok c)
    ∧ (∀ (p : String) (b : Option String) (e : Bool) (opts : ScheduleOptions) (u cp : String)
        (n : Nat), optTruthy opts.time = false → optTruthy opts.cron = false →
      scheduleOperation p b e opts u cp n =
        Except.error "Either --time or --cron must be specified" )
    ∧ (∀ (p ba : String) (opts : ScheduleOptions) (env : Option String) (cp : String) (n : Nat),
        optTruthy opts.time = false → optTruthy opts.cron = false →
      scheduleEnableAction p ba opts env cp n =
        Except.error "Error: Either --time or --cron must be specified" )
    ∧ (∀ (p : String) (opts : ScheduleOptions) (env : Option String) (cp : String) (n : Nat),
        optTruthy opts.time = false → optTruthy opts.cron = false →
      scheduleDisableAction p opts env cp n =
        Except.error "Error: Either --time or --cron must be specified" ) := by
  refine ⟨?_, ?_, ?_, ?_⟩
  · intro p b e t c tz u cp n hc
    simp [scheduleOperation, computeSchedule_cron c hc t tz, Except.map]
  · intro p b e opts u cp n h1 h2
    simp [scheduleOperation, computeSchedule_neither opts h1 h2, Except.map]
  · intro p ba opts env cp n h1 h2
    simp [scheduleEnableAction, h1, h2]
  · intro p opts env cp n h1 h2
    simp [scheduleDisableAction, h1, h2]

/-- Witness for the amended C3: both-present registers the cron job;
neither-present fails locally at both enforcement points. -/
theorem claim_c3_amended_witness :
    ((scheduleOperation "p1" (some "b1" ) true ⟨some "09:00" , some "0 18 * * 1-5" , none⟩
        "https://fn" "cur" 0).map Job.schedule = Except.ok "0 18 * * 1-5" )
    ∧ (scheduleOperation "p1" none false ⟨none, none, none⟩ "https://fn" "cur" 0 =
        Except.error "Either --time or --cron must be specified" )
    ∧ (scheduleEnableAction "p1" "b1" ⟨none, none, none⟩ (some "https://fn" ) "cur" 0 =
        Except.error "Error: Either --time or --cron must be specified" )
    ∧ (scheduleDisableAction "p1" ⟨none, none, none⟩ (some "https://fn" ) "cur" 0 =
        Except.error "Error: Either --time or --cron must be specified" ) :=
  ⟨claim_c3_amended.1 "p1" (some "b1" ) true (some "09:00" ) "0 18 * * 1-5" none
      "https://fn" "cur" 0 (by decide),
    claim_c3_amended.2.1 "p1" none false ⟨none, none, none⟩ "https://fn" "cur" 0 rfl rfl,
    claim_c3_amended.2.2.1 "p1" "b1" ⟨none, none, none⟩ (some "https://fn" ) "cur" 0 rfl rfl,
    claim_c3_amended.2.2.2 "p1" ⟨none, none, none⟩ (some "https://fn" ) "cur" 0 rfl rfl⟩

/--
C4: for every valid absolute daily time `HH:MM` (hour and minute given
as decimal digit strings with values at most 23 and 59), normalization
produces exactly the five-field recurrence `MM HH * * *`; a raw
recurrence expression supplied instead is placed verbatim into the
registered job's recurrence field; and the caller-supplied timezone
(defaulting to UTC when absent) is preserved unchanged in the job.
-/
theorem claim_c4 (p : String) (b : Option String) (e : Bool) (u cp : String) (n : Nat)
    (hS mS : String) (tz : Option String)
    (hd1 : hS.data.all Char.isDigit = true) (hd2 : mS.data.all Char.isDigit = true)
    (hb1 : digitsVal hS.data ≤ 23) (hb2 : digitsVal mS.data ≤ 59) :
    ((scheduleOperation p b e ⟨some (hS ++ ":" ++ mS), none, tz⟩ u cp n).map Job.schedule =
      Except.ok (mS ++ " " ++ hS ++ " * * *" ))
    ∧ (∀ c : String, c ≠ "" → ∀ t : Option String,
        (scheduleOperation p b e ⟨t, some c, tz⟩ u cp n).map Job.schedule = Except.ok c)
    ∧ (∀ s : String, tz = some s → s ≠ "" →
        (scheduleOperation p b e ⟨some (hS ++ ":" ++ mS), none, tz⟩ u cp n).map Job.timeZone =
          Except.ok s)
    ∧ (tz = none →
        (scheduleOperation p b e ⟨some (hS ++ ":" ++ mS), none, tz⟩ u cp n).map Job.timeZone =
          Except.ok "UTC" ) := by
  have hdata : (hS ++ ":" ++ mS).data = hS.data ++ ':' :: mS.data := by
    rw [strData_append, strData_append]
    simp
  have ht : hS ++ ":" ++ mS ≠ "" := by
    intro heq
    have := congrArg String.data heq
    rw [hdata] at this
    simp at this
  have hsplit : jsSplitColon (hS ++ ":" ++ mS) = [hS, mS] :=
    jsSplitColon_pair hS mS (isDigit_not_colon hd1) (isDigit_not_colon hd2)
  refine ⟨?_, ?_, ?_, ?_⟩
  · simp [scheduleOperation, computeSchedule_time _ ht tz, hsplit, Except.map, jsStr]
  · intro c hc t
    simp [scheduleOperation, computeSchedule_cron c hc t tz, Except.map]
  · intro s hs hne
    subst hs
    simp [scheduleOperation, computeSchedule_time (hS ++ ":" ++ mS) ht (some s), Except.map,
      optTruthy, hne, jsStr]
  · intro hnone
    subst hnone
    simp [scheduleOperation, computeSchedule_time (hS ++ ":" ++ mS) ht none, Except.map,
      optTruthy]

/-- Witness for C4 at time `9:30`, cron `0 18 * * 1-5`, timezone
`America/Los_Angeles`. -/
theorem claim_c4_witness :
    ((scheduleOperation "p1" (some "b1" ) true
        ⟨some ( "9" ++ ":" ++ "30" ), none, some "America/Los_Angeles" ⟩ "https://fn" "cur"
        0).map Job.schedule = Except.ok "30 9 * * *" )
    ∧ ((scheduleOperation "p1" (some "b1" ) true
        ⟨none, some "0 18 * * 1-5" , some "America/Los_Angeles" ⟩ "https://fn" "cur"
        0).map Job.schedule = Except.ok "0 18 * * 1-5" )
    ∧ ((scheduleOperation "p1" (some "b1" ) true
        ⟨some ( "9" ++ ":" ++ "30" ), none, some "America/Los_Angeles" ⟩ "https://fn" "cur"
        0).map Job.timeZone = Except.ok "America/Los_Angeles" ) := by
  have h := claim_c4 "p1" (some "b1" ) true "https://fn" "cur" 0 "9" "30"
    (some "America/Los_Angeles" ) (by decide) (by decide) (by decide) (by decide)
  exact ⟨h.1.trans (by decide), h.2.1 "0 18 * * 1-5" (by decide) none,
    h.2.2.1 "America/Los_Angeles" rfl (by decide)⟩

/-! ## Claim theorems for the Callback Executor -/

/--
C1: for every validated `BillingMutationRequest` executed by the
Callback Executor (a POST with JSON content type whose body passes
validation), the billing service is invoked with `billingEnabled`
equal to the request's `enable` flag; when enabling, the linked
account name is `billingAccounts/` followed by the billing account id,
and when disabling, the billing account association passed to the
billing service is the empty string, unconditionally, regardless of
any `billingAccountId` supplied in the request.
-/
theorem claim_c1 (req : HttpRequest) (r : Except BillingError Unit)
    (hm : req.method = "POST" ) (hct : req.contentType = some "application/json" )
    (hp : optTruthy req.body.projectId = true)
    (he : req.body.enable = true → optTruthy req.body.billingAccountId = true) :
    (manageBilling req r).2 = some
      ⟨ "projects/" ++ jsStr req.body.projectId,
        (if req.body.enable then "billingAccounts/" ++ jsStr req.body.billingAccountId
         else "" ),
        req.body.enable⟩ := by
  have hval : ¬ (req.body.enable = true ∧ ¬ optTruthy req.body.billingAccountId = true) := by
    intro ⟨h1, h2⟩
    exact h2 (he h1)
  cases hen : req.body.enable with
  | false =>
    simp only [manageBilling, hm, hct, hp, hen]
    rcases r with e | v
    · by_cases h7 : e.code = 7 <;> by_cases h5 : e.code = 5 <;> simp [h7, h5]
    · simp
  | true =>
    have hb : optTruthy req.body.billingAccountId = true := he hen
    simp only [manageBilling, hm, hct, hp, hen, hb]
    rcases r with e | v
    · by_cases h7 : e.code = 7 <;> by_cases h5 : e.code = 5 <;> simp [h7, h5]
    · simp

/-- Witness for C1: enabling with account `b1` links
`billingAccounts/b1`; disabling with a supplied account still passes
the empty association. -/
theorem claim_c1_witness :
    ((manageBilling ⟨ "POST" , some "application/json" ,
        ⟨some "p1" , some "b1" , true⟩⟩ (Except.ok ())).2 =
      some ⟨ "projects/p1" , "billingAccounts/b1" , true⟩)
    ∧ ((manageBilling ⟨ "POST" , some "application/json" ,
        ⟨some "p1" , some "b1" , false⟩⟩ (Except.ok ())).2 =
      some ⟨ "projects/p1" , "" , false⟩) := by
  constructor
  · have h := claim_c1 ⟨ "POST" , some "application/json" , ⟨some "p1" , some "b1" , true⟩⟩
      (Except.ok ()) rfl rfl (by decide) (fun _ => by decide)
    exact h.trans (by decide)
  · have h := claim_c1 ⟨ "POST" , some "application/json" , ⟨some "p1" , some "b1" , false⟩⟩
      (Except.ok ()) rfl rfl (by decide) (fun hc => by simp at hc)
    exact h.trans (by decide)

/--
C5: a `BillingMutationRequest` with `enable = true` and no
`billingAccountId` is rejected with HTTP status 400 before any call to
the billing service.
-/
theorem claim_c5 (req : HttpRequest) (r : Except BillingError Unit)
    (hm : req.method = "POST" ) (hct : req.contentType = some "application/json" )
    (hen : req.body.enable = true) (hb : req.body.billingAccountId = none) :
    (manageBilling req r).1.status = 400 ∧ (manageBilling req r).2 = none := by
  by_cases hp : optTruthy req.body.projectId = true
  · have : optTruthy req.body.billingAccountId = false := by rw [hb]; rfl
    simp [manageBilling, hm, hct, hp, hen, this]
  · simp [manageBilling, hm, hct, hp]

/-- Witness for C5. -/
theorem claim_c5_witness :
    (manageBilling ⟨ "POST" , some "application/json" , ⟨some "p1" , none, true⟩⟩
        (Except.ok ())).1.status = 400
    ∧ (manageBilling ⟨ "POST" , some "application/json" , ⟨some "p1" , none, true⟩⟩
        (Except.ok ())).2 = none :=
  claim_c5 ⟨ "POST" , some "application/json" , ⟨some "p1" , none, true⟩⟩
    (Except.ok ()) rfl rfl rfl rfl

/--
C6: a request whose method is neither POST nor the OPTIONS preflight is
rejected 405; a POST whose content type is not `application/json` is
rejected 400; in both cases no billing call is made and the response is
independent of the request body (the body is never inspected).
-/
theorem claim_c6 (req : HttpRequest) (r : Except BillingError Unit) :
    (req.method ≠ "OPTIONS" → req.method ≠ "POST" →
      (manageBilling req r).1.status = 405 ∧ (manageBilling req r).2 = none ∧
      ∀ b2 : ReqBody, manageBilling ⟨req.method, req.contentType, b2⟩ r = manageBilling req r)
    ∧ (req.method = "POST" → req.contentType ≠ some "application/json" →
      (manageBilling req r).1.status = 400 ∧ (manageBilling req r).2 = none ∧
      ∀ b2 : ReqBody, manageBilling ⟨req.method, req.contentType, b2⟩ r = manageBilling req r) := by
  constructor
  · intro ho hp
    refine ⟨?_, ?_, ?_⟩ <;> simp [manageBilling, ho, hp]
  · intro hp hct
    refine ⟨?_, ?_, ?_⟩ <;> simp [manageBilling, hp, hct]

/-- Witness for C6: a GET request and a POST with `text/plain`. -/
theorem claim_c6_witness :
    ((manageBilling ⟨ "GET" , some "application/json" , ⟨some "p1" , some "b1" , true⟩⟩
        (Except.ok ())).1.status = 405
      ∧ (manageBilling ⟨ "GET" , some "application/json" , ⟨some "p1" , some "b1" , true⟩⟩
        (Except.ok ())).2 = none
      ∧ manageBilling ⟨ "GET" , some "application/json" , ⟨none, none, false⟩⟩ (Except.ok ()) =
          manageBilling ⟨ "GET" , some "application/json" , ⟨some "p1" , some "b1" , true⟩⟩
            (Except.ok ()))
    ∧ ((manageBilling ⟨ "POST" , some "text/plain" , ⟨some "p1" , some "b1" , true⟩⟩
        (Except.ok ())).1.status = 400
      ∧ (manageBilling ⟨ "POST" , some "text/plain" , ⟨some "p1" , some "b1" , true⟩⟩
        (Except.ok ())).2 = none
      ∧ manageBilling ⟨ "POST" , some "text/plain" , ⟨none, none, false⟩⟩ (Except.ok ()) =
          manageBilling ⟨ "POST" , some "text/plain" , ⟨some "p1" , some "b1" , true⟩⟩
            (Except.ok ())) := by
  constructor
  · have h := (claim_c6 ⟨ "GET" , some "application/json" , ⟨some "p1" , some "b1" , true⟩⟩
      (Except.ok ())).1 (by decide) (by decide)
    exact ⟨h.1, h.2.1, h.2.2 ⟨none, none, false⟩⟩
  · have h := (claim_c6 ⟨ "POST" , some "text/plain" , ⟨some "p1" , some "b1" , true⟩⟩
      (Except.ok ())).2 rfl (by decide)
    exact ⟨h.1, h.2.1, h.2.2 ⟨none, none, false⟩⟩

/--
C10: every response emitted by the Callback Executor — the 204 OPTIONS
preflight reply, the 400/405 validation rejections, the 403/404/500
error responses and the 200 success response — carries the permissive
CORS header `Access-Control-Allow-Origin: *`.
-/
theorem claim_c10 (req : HttpRequest) (r : Except BillingError Unit) :
    corsHeader ∈ (manageBilling req r).1.headers := by
  unfold manageBilling
  split
  · simp
  · split
    · simp
    · split
      · simp
      · split
        · simp
        · split
          · simp
          · rcases r with e | v
            · by_cases h7 : e.code = 7 <;> by_cases h5 : e.code = 5 <;> simp [h7, h5]
            · simp

/--
C7 counterexample: for a billing failure with category code 7
(permission) and reason `SERVICE_DISABLED`, the Callback Executor's
response is byte-for-byte identical to the one for reason
`PERMISSION_DENIED` — a generic 403 `Permission denied` body — so it
carries no `ServiceDisabled` category and no API-naming remediation
text distinct from the `PermissionDenied` classification.
-/
theorem claim_c7_counterexample :
    ((manageBilling ⟨ "POST" , some "application/json" , ⟨some "p1" , some "b1" , true⟩⟩
        (Except.error ⟨7, "SERVICE_DISABLED" , "m1" ⟩)).1 =
      (manageBilling ⟨ "POST" , some "application/json" , ⟨some "p1" , some "b1" , true⟩⟩
        (Except.error ⟨7, "PERMISSION_DENIED" , "m1" ⟩)).1)
    ∧ (List.lookup "error"
        (manageBilling ⟨ "POST" , some "application/json" , ⟨some "p1" , some "b1" , true⟩⟩
          (Except.error ⟨7, "SERVICE_DISABLED" , "m1" ⟩)).1.body =
        some (JVal.jstr "Permission denied" ))
    ∧ ((manageBilling ⟨ "POST" , some "application/json" , ⟨some "p1" , some "b1" , true⟩⟩
        (Except.error ⟨7, "SERVICE_DISABLED" , "m1" ⟩)).1.status = 403) := by
  refine ⟨?_, ?_, ?_⟩ <;> decide

/--
C7 amended: the Callback Executor maps EVERY category-code-7
(permission) billing failure, regardless of its reason code, to a
single HTTP 403 response with the generic `Permission denied` error
label; the ServiceDisabled-versus-PermissionDenied distinction — with
remediation text naming the APIs to enable versus the required IAM
roles — exists only in the CLI's `handleApiError` classifier.
-/
theorem claim_c7_amended :
    (∀ (req : HttpRequest) (e : BillingError),
      req.method = "POST" → req.contentType = some "application/json" →
      optTruthy req.body.projectId = true →
      (req.body.enable = true → optTruthy req.body.billingAccountId = true) →
      e.code = 7 →
      (manageBilling req (Except.error e)).1.status = 403 ∧
      List.lookup "error" (manageBilling req (Except.error e)).1.body =
        some (JVal.jstr "Permission denied" ))
    ∧ (∀ msg : String, handleApiError ⟨7, "SERVICE_DISABLED" , msg⟩ =
        ErrorClass.serviceDisabled)
    ∧ (∀ msg : String, handleApiError ⟨7, "PERMISSION_DENIED" , msg⟩ =
        ErrorClass.permissionDenied)
    ∧ remediationText ErrorClass.serviceDisabled =
        "Please enable the following APIs in your GCP project:"
    ∧ remediationText ErrorClass.permissionDenied = "Required permissions:" := by
  refine ⟨?_, ?_, ?_, rfl, rfl⟩
  · intro req e hm hct hp he h7
    have hval : ¬ (req.body.enable = true ∧ ¬ optTruthy req.body.billingAccountId = true) := by
      intro ⟨h1, h2⟩
      exact h2 (he h1)
    cases hen : req.body.enable with
    | false => simp [manageBilling, hm, hct, hp, hen, h7]
    | true =>
      have hb := he hen
      simp [manageBilling, hm, hct, hp, hen, hb, h7]
  · intro msg
    rfl
  · intro msg
    rfl

/-- Witness for the amended C7 at a concrete `SERVICE_DISABLED`
failure. -/
theorem claim_c7_amended_witness :
    ((manageBilling ⟨ "POST" , some "application/json" , ⟨some "p1" , some "b1" , true⟩⟩
        (Except.error ⟨7, "SERVICE_DISABLED" , "m2" ⟩)).1.status = 403
      ∧ List.lookup "error"
          (manageBilling ⟨ "POST" , some "application/json" , ⟨some "p1" , some "b1" , true⟩⟩
            (Except.error ⟨7, "SERVICE_DISABLED" , "m2" ⟩)).1.body =
          some (JVal.jstr "Permission denied" ))
    ∧ handleApiError ⟨7, "SERVICE_DISABLED" , "m2" ⟩ = ErrorClass.serviceDisabled :=
  ⟨claim_c7_amended.1 ⟨ "POST" , some "application/json" , ⟨some "p1" , some "b1" , true⟩⟩
      ⟨7, "SERVICE_DISABLED" , "m2" ⟩ rfl rfl (by decide) (fun _ => by decide) rfl,
    claim_c7_amended.2.1 "m2" ⟩

/--
C9 counterexample: on a successful disable with `billingAccountId`
null, the 200 response body's `billingAccountId` field is the
placeholder string `None`, not the null value — the (possibly null)
billing account identifier itself is not echoed back.
-/
theorem claim_c9_counterexample :
    List.lookup "billingAccountId"
        (manageBilling ⟨ "POST" , some "application/json" , ⟨some "p1" , none, false⟩⟩
          (Except.ok ())).1.body = some (JVal.jstr "None" )
    ∧ List.lookup "billingAccountId"
        (manageBilling ⟨ "POST" , some "application/json" , ⟨some "p1" , none, false⟩⟩
          (Except.ok ())).1.body ≠ some JVal.jnull := by
  constructor <;> decide

/--
C9 amended: on success the 200 response body echoes back the target
project identifier, the action performed (the `enable` flag), a
human-readable confirmation string, and the billing account identifier
when one was supplied — with the placeholder string `None` substituted
when the identifier was null or empty.
-/
theorem claim_c9_amended (req : HttpRequest)
    (hm : req.method = "POST" ) (hct : req.contentType = some "application/json" )
    (hp : optTruthy req.body.projectId = true)
    (he : req.body.enable = true → optTruthy req.body.billingAccountId = true) :
    (manageBilling req (Except.ok ())).1.status = 200
    ∧ List.lookup "projectId" (manageBilling req (Except.ok ())).1.body =
        some (JVal.jstr (jsStr req.body.projectId))
    ∧ List.lookup "enable" (manageBilling req (Except.ok ())).1.body =
        some (JVal.jbool req.body.enable)
    ∧ List.lookup "message" (manageBilling req (Except.ok ())).1.body =
        some (JVal.jstr ( "Successfully " ++
          (if req.body.enable then "enabled" else "disabled" ) ++
          " billing for project " ++ jsStr req.body.projectId))
    ∧ List.lookup "billingAccountId" (manageBilling req (Except.ok ())).1.body =
        some (JVal.jstr
          (if optTruthy req.body.billingAccountId then jsStr req.body.billingAccountId
           else "None" )) := by
  have hval : ¬ (req.body.enable = true ∧ ¬ optTruthy req.body.billingAccountId = true) := by
    intro ⟨h1, h2⟩
    exact h2 (he h1)
  cases hen : req.body.enable with
  | false => simp [manageBilling, hm, hct, hp, hen, List.lookup]
  | true =>
    have hb := he hen
    simp [manageBilling, hm, hct, hp, hen, hb, List.lookup]

/-- Witness for the amended C9: disable with null account echoes
project, flag, message and the `None` placeholder. -/
theorem claim_c9_amended_witness :
    (manageBilling ⟨ "POST" , some "application/json" , ⟨some "p1" , none, false⟩⟩
        (Except.ok ())).1.status = 200
    ∧ List.lookup "projectId"
        (manageBilling ⟨ "POST" , some "application/json" , ⟨some "p1" , none, false⟩⟩
          (Except.ok ())).1.body = some (JVal.jstr "p1" )
    ∧ List.lookup "enable"
        (manageBilling ⟨ "POST" , some "application/json" , ⟨some "p1" , none, false⟩⟩
          (Except.ok ())).1.body = some (JVal.jbool false) := by
  have h := claim_c9_amended ⟨ "POST" , some "application/json" , ⟨some "p1" , none, false⟩⟩
    rfl rfl (by decide) (fun hc => by simp at hc)
  exact ⟨h.1, h.2.1.trans (by decide), h.2.2.1⟩

/-! ## Round-trip lemmas for the transport encoding (claim C8) -/

theorem dropLead_append (p l : List Char) : dropLead p (p ++ l) = some l := by
  induction p with
  | nil => rfl
  | cons c cs ih => simp [dropLead, ih]

theorem hexVal_hexDigitChar : ∀ n, n < 16 → hexVal (hexDigitChar n) = some n := by
  decide

theorem parseStrBody_quote (l : List Char) : parseStrBody ( '"' :: l) = some ([], l) := by
  rw [parseStrBody.eq_def]
  dsimp only
  rw [if_pos rfl]

theorem parseStrBody_escQuote (l : List Char) :
    parseStrBody ( '\\' :: '"' :: l) = (parseStrBody l).map fun r => ( '"' :: r.1, r.2) := by
  rw [parseStrBody.eq_def]
  dsimp only
  rw [if_neg (by decide : ¬ ( '\\' : Char) = '"' ), if_pos rfl,
    if_pos (Or.inl rfl : ( '"' : Char) = '"' ∨ ( '"' : Char) = '\\' ∨ ( '"' : Char) = '/' )]

theorem parseStrBody_escBack (l : List Char) :
    parseStrBody ( '\\' :: '\\' :: l) = (parseStrBody l).map fun r => ( '\\' :: r.1, r.2) := by
  rw [parseStrBody.eq_def]
  dsimp only
  rw [if_neg (by decide : ¬ ( '\\' : Char) = '"' ), if_pos rfl,
    if_pos (Or.inr (Or.inl rfl) :
      ( '\\' : Char) = '"' ∨ ( '\\' : Char) = '\\' ∨ ( '\\' : Char) = '/' )]

theorem parseStrBody_escCode (e : Char) (v : Nat) (l : List Char)
    (he : (e = 'b' ∧ v = 8) ∨ (e = 't' ∧ v = 9) ∨ (e = 'n' ∧ v = 10) ∨
      (e = 'f' ∧ v = 12) ∨ (e = 'r' ∧ v = 13)) :
    parseStrBody ( '\\' :: e :: l) = (parseStrBody l).map fun r => (Char.ofNat v :: r.1, r.2) := by
  rcases he with ⟨he, hv⟩ | ⟨he, hv⟩ | ⟨he, hv⟩ | ⟨he, hv⟩ | ⟨he, hv⟩ <;> subst he <;> subst hv <;>
      (rw [parseStrBody.eq_def]
       dsimp only
       rw [if_neg (by decide : ¬ ( '\\' : Char) = '"' ), if_pos rfl])
  · rw [if_neg (by decide :
        ¬ (( 'b' : Char) = '"' ∨ ( 'b' : Char) = '\\' ∨ ( 'b' : Char) = '/' )), if_pos rfl]
  · rw [if_neg (by decide :
        ¬ (( 't' : Char) = '"' ∨ ( 't' : Char) = '\\' ∨ ( 't' : Char) = '/' )),
      if_neg (by decide : ¬ ( 't' : Char) = 'b' ), if_pos rfl]
  · rw [if_neg (by decide :
        ¬ (( 'n' : Char) = '"' ∨ ( 'n' : Char) = '\\' ∨ ( 'n' : Char) = '/' )),
      if_neg (by decide : ¬ ( 'n' : Char) = 'b' ),
      if_neg (by decide : ¬ ( 'n' : Char) = 't' ), if_pos rfl]
  · rw [if_neg (by decide :
        ¬ (( 'f' : Char) = '"' ∨ ( 'f' : Char) = '\\' ∨ ( 'f' : Char) = '/' )),
      if_neg (by decide : ¬ ( 'f' : Char) = 'b' ),
      if_neg (by decide : ¬ ( 'f' : Char) = 't' ),
      if_neg (by decide : ¬ ( 'f' : Char) = 'n' ), if_pos rfl]
  · rw [if_neg (by decide :
        ¬ (( 'r' : Char) = '"' ∨ ( 'r' : Char) = '\\' ∨ ( 'r' : Char) = '/' )),
      if_neg (by decide : ¬ ( 'r' : Char) = 'b' ),
      if_neg (by decide : ¬ ( 'r' : Char) = 't' ),
      if_neg (by decide : ¬ ( 'r' : Char) = 'n' ),
      if_neg (by decide : ¬ ( 'r' : Char) = 'f' ), if_pos rfl]

theorem parseStrBody_escU (h1 h2 h3 h4 : Char) (l : List Char) :
    parseStrBody ( '\\' :: 'u' :: h1 :: h2 :: h3 :: h4 :: l) =
      (match hexVal h1, hexVal h2, hexVal h3, hexVal h4 with
       | some v1, some v2, some v3, some v4 =>
         (parseStrBody l).map fun r =>
           (Char.ofNat (v1 * 4096 + v2 * 256 + v3 * 16 + v4) :: r.1, r.2)
       | _, _, _, _ => none) := by
  rw [parseStrBody.eq_def]
  dsimp only
  rw [if_neg (by decide : ¬ ( '\\' : Char) = '"' ), if_pos rfl,
    if_neg (by decide : ¬ (( 'u' : Char) = '"' ∨ ( 'u' : Char) = '\\' ∨ ( 'u' : Char) = '/' )),
    if_neg (by decide : ¬ ( 'u' : Char) = 'b' ),
    if_neg (by decide : ¬ ( 'u' : Char) = 't' ),
    if_neg (by decide : ¬ ( 'u' : Char) = 'n' ),
    if_neg (by decide : ¬ ( 'u' : Char) = 'f' ),
    if_neg (by decide : ¬ ( 'u' : Char) = 'r' ),
    if_pos rfl]

theorem parseStrBody_plain (c : Char) (l : List Char) (h1 : ¬ c = '"' ) (h2 : ¬ c = '\\' ) :
    parseStrBody (c :: l) = (parseStrBody l).map fun r => (c :: r.1, r.2) := by
  rw [parseStrBody.eq_def]
  dsimp only
  rw [if_neg h1, if_neg h2]

theorem charEq_of_toNat {c : Char} {n : Nat} (h : c.toNat = n) : c = Char.ofNat n := by
  rw [← h, Char.ofNat_toNat]

theorem parseStrBody_escChar (c : Char) (l : List Char) :
    parseStrBody (escChar c ++ l) =
      (parseStrBody l).map fun r => (c :: r.1, r.2) := by
  by_cases h1 : c = '"'
  · subst h1
    simpa [escChar] using parseStrBody_escQuote l
  · by_cases h2 : c = '\\'
    · subst h2
      simpa [escChar] using parseStrBody_escBack l
    · by_cases h3 : c.toNat = 8
      · rw [show escChar c = [ '\\' , 'b' ] by simp [escChar, h1, h2, h3]]
        rw [List.cons_append, List.cons_append, List.nil_append,
          parseStrBody_escCode 'b' 8 l (Or.inl ⟨rfl, rfl⟩), ← charEq_of_toNat h3]
      · by_cases h4 : c.toNat = 9
        · rw [show escChar c = [ '\\' , 't' ] by simp [escChar, h1, h2, h3, h4]]
          rw [List.cons_append, List.cons_append, List.nil_append,
            parseStrBody_escCode 't' 9 l (Or.inr (Or.inl ⟨rfl, rfl⟩)), ← charEq_of_toNat h4]
        · by_cases h5 : c.toNat = 10
          · rw [show escChar c = [ '\\' , 'n' ] by simp [escChar, h1, h2, h3, h4, h5]]
            rw [List.cons_append, List.cons_append, List.nil_append,
              parseStrBody_escCode 'n' 10 l (Or.inr (Or.inr (Or.inl ⟨rfl, rfl⟩))),
              ← charEq_of_toNat h5]
          · by_cases h6 : c.toNat = 12
            · rw [show escChar c = [ '\\' , 'f' ] by simp [escChar, h1, h2, h3, h4, h5, h6]]
              rw [List.cons_append, List.cons_append, List.nil_append,
                parseStrBody_escCode 'f' 12 l (Or.inr (Or.inr (Or.inr (Or.inl ⟨rfl, rfl⟩)))),
                ← charEq_of_toNat h6]
            · by_cases h7 : c.toNat = 13
              · rw [show escChar c = [ '\\' , 'r' ] by simp [escChar, h1, h2, h3, h4, h5, h6, h7]]
                rw [List.cons_append, List.cons_append, List.nil_append,
                  parseStrBody_escCode 'r' 13 l
                    (Or.inr (Or.inr (Or.inr (Or.inr ⟨rfl, rfl⟩)))),
                  ← charEq_of_toNat h7]
              · by_cases h8 : c.toNat < 32
                · rw [show escChar c =
                      [ '\\' , 'u' , '0' , '0' , hexDigitChar (c.toNat / 16),
                        hexDigitChar (c.toNat % 16) ] by
                    simp [escChar, h1, h2, h3, h4, h5, h6, h7, h8]]
                  simp only [List.cons_append, List.nil_append]
                  rw [parseStrBody_escU]
                  rw [(by decide : hexVal '0' = some 0),
                    hexVal_hexDigitChar (c.toNat / 16) (by omega),
                    hexVal_hexDigitChar (c.toNat % 16) (by omega)]
                  dsimp only
                  rw [show 0 * 4096 + 0 * 256 + c.toNat / 16 * 16 + c.toNat % 16 = c.toNat by
                    omega]
                  rw [Char.ofNat_toNat]
                · rw [show escChar c = [c] by simp [escChar, h1, h2, h3, h4, h5, h6, h7, h8]]
                  rw [List.cons_append, List.nil_append, parseStrBody_plain c l h1 h2]

theorem parseStrBody_escString (s : List Char) (l : List Char) :
    parseStrBody (escString s ++ '"' :: l) = some (s, l) := by
  induction s with
  | nil => simpa [escString] using parseStrBody_quote l
  | cons c cs ih =>
    simp only [escString, List.append_assoc]
    rw [parseStrBody_escChar, ih]
    rfl

theorem parseAcct_str (p b T : List Char) :
    parseAcct p ( '"' :: (escString b ++ '"' :: T)) =
      (parseEnableTail T).map fun en => (⟨⟨p⟩, some ⟨b⟩, en⟩ : BillingMutationRequest) := by
  rw [parseAcct.eq_def]
  dsimp only
  rw [if_pos rfl, parseStrBody_escString]

theorem parseAcct_null (p T : List Char) :
    parseAcct p (( "null" ).data ++ T) =
      (parseEnableTail T).map fun en => (⟨⟨p⟩, none, en⟩ : BillingMutationRequest) := by
  have hnull : ( "null" ).data = 'n' :: 'u' :: 'l' :: 'l' :: [] := by decide
  rw [hnull]
  simp only [List.cons_append, List.nil_append]
  rw [parseAcct.eq_def]
  dsimp only
  rw [if_neg (by decide : ¬ ( 'n' : Char) = '"' )]
  rw [show ( 'n' :: 'u' :: 'l' :: 'l' :: T : List Char) =
    [ 'n' , 'u' , 'l' , 'l' ] ++ T from rfl]
  rw [dropLead_append]

theorem utf8EncodeChar_lt256 (c : Char) : ∀ x ∈ utf8EncodeChar c, x < 256 := by
  have hv := char_toNat_lt c
  intro x hx
  by_cases h1 : c.toNat < 128
  · rw [show utf8EncodeChar c = [c.toNat] from by simp [utf8EncodeChar, h1]] at hx
    simp at hx
    omega
  · by_cases h2 : c.toNat < 2048
    · rw [show utf8EncodeChar c = [192 + c.toNat / 64, 128 + c.toNat % 64] from by
        simp [utf8EncodeChar, h1, h2]] at hx
      simp at hx
      rcases hx with h | h <;> omega
    · by_cases h3 : c.toNat < 65536
      · rw [show utf8EncodeChar c =
            [224 + c.toNat / 4096, 128 + c.toNat / 64 % 64, 128 + c.toNat % 64] from by
          simp [utf8EncodeChar, h1, h2, h3]] at hx
        simp at hx
        rcases hx with h | h | h <;> omega
      · rw [show utf8EncodeChar c =
            [240 + c.toNat / 262144, 128 + c.toNat / 4096 % 64, 128 + c.toNat / 64 % 64,
              128 + c.toNat % 64] from by simp [utf8EncodeChar, h1, h2, h3]] at hx
        simp at hx
        rcases hx with h | h | h | h <;> omega

theorem utf8Encode_lt256 (s : List Char) : ∀ x ∈ utf8Encode s, x < 256 := by
  induction s with
  | nil => intro x hx; simp [utf8Encode] at hx
  | cons c cs ih =>
    intro x hx
    rw [show utf8Encode (c :: cs) = utf8EncodeChar c ++ utf8Encode cs from rfl] at hx
    rcases List.mem_append.mp hx with h | h
    · exact utf8EncodeChar_lt256 c x h
    · exact ih x h

theorem utf8Decode_encodeChar (c : Char) (l : List Nat) :
    utf8Decode (utf8EncodeChar c ++ l) = (utf8Decode l).map fun cs => c :: cs := by
  have hv := char_toNat_lt c
  by_cases h1 : c.toNat < 128
  · rw [show utf8EncodeChar c = [c.toNat] from by simp [utf8EncodeChar, h1]]
    rw [List.singleton_append, utf8Decode.eq_def]
    dsimp only
    rw [if_pos h1, Char.ofNat_toNat]
  · by_cases h2 : c.toNat < 2048
    · rw [show utf8EncodeChar c = [192 + c.toNat / 64, 128 + c.toNat % 64] from by
        simp [utf8EncodeChar, h1, h2]]
      simp only [List.cons_append, List.nil_append]
      rw [utf8Decode.eq_def]
      dsimp only
      rw [if_neg (by omega), if_neg (by omega), if_pos (by omega)]
      rw [if_pos (show 128 ≤ 128 + c.toNat % 64 ∧ 128 + c.toNat % 64 < 192 by omega)]
      rw [show (192 + c.toNat / 64 - 192) * 64 + (128 + c.toNat % 64 - 128) = c.toNat from by
        omega]
      rw [Char.ofNat_toNat]
    · by_cases h3 : c.toNat < 65536
      · rw [show utf8EncodeChar c =
            [224 + c.toNat / 4096, 128 + c.toNat / 64 % 64, 128 + c.toNat % 64] from by
          simp [utf8EncodeChar, h1, h2, h3]]
        simp only [List.cons_append, List.nil_append]
        rw [utf8Decode.eq_def]
        dsimp only
        rw [if_neg (by omega), if_neg (by omega), if_neg (by omega), if_pos (by omega)]
        rw [if_pos (show (128 ≤ 128 + c.toNat / 64 % 64 ∧ 128 + c.toNat / 64 % 64 < 192) ∧
          128 ≤ 128 + c.toNat % 64 ∧ 128 + c.toNat % 64 < 192 by omega)]
        rw [show (224 + c.toNat / 4096 - 224) * 4096 + (128 + c.toNat / 64 % 64 - 128) * 64 +
          (128 + c.toNat % 64 - 128) = c.toNat from by omega]
        rw [Char.ofNat_toNat]
      · rw [show utf8EncodeChar c =
            [240 + c.toNat / 262144, 128 + c.toNat / 4096 % 64, 128 + c.toNat / 64 % 64,
              128 + c.toNat % 64] from by simp [utf8EncodeChar, h1, h2, h3]]
        simp only [List.cons_append, List.nil_append]
        rw [utf8Decode.eq_def]
        dsimp only
        rw [if_neg (by omega), if_neg (by omega), if_neg (by omega), if_neg (by omega)]
        rw [if_pos (show ((128 ≤ 128 + c.toNat / 4096 % 64 ∧ 128 + c.toNat / 4096 % 64 < 192) ∧
          (128 ≤ 128 + c.toNat / 64 % 64 ∧ 128 + c.toNat / 64 % 64 < 192) ∧
          128 ≤ 128 + c.toNat % 64 ∧ 128 + c.toNat % 64 < 192) by omega)]
        rw [show (240 + c.toNat / 262144 - 240) * 262144 +
          (128 + c.toNat / 4096 % 64 - 128) * 4096 + (128 + c.toNat / 64 % 64 - 128) * 64 +
          (128 + c.toNat % 64 - 128) = c.toNat from by omega]
        rw [Char.ofNat_toNat]

theorem utf8Decode_utf8Encode (s : List Char) : utf8Decode (utf8Encode s) = some s := by
  induction s with
  | nil => rfl
  | cons c cs ih =>
    rw [show utf8Encode (c :: cs) = utf8EncodeChar c ++ utf8Encode cs from rfl]
    rw [utf8Decode_encodeChar, ih]
    rfl

theorem b64Index_b64Char : ∀ i, i < 64 → b64Index (b64Char i) = some i := by
  decide

theorem b64Char_ne_pad : ∀ i, i < 64 → ¬ b64Char i = '=' := by
  decide

theorem b64_roundtrip : ∀ bs : List Nat, (∀ x ∈ bs, x < 256) →
    b64Decode (b64Encode bs) = some bs
  | [] => fun _ => rfl
  | [a] => fun h => by
    have ha : a < 256 := h a (by simp)
    rw [show b64Encode [a] = [b64Char (a / 4), b64Char (a % 4 * 16), '=' , '=' ] from rfl]
    rw [b64Decode.eq_def]
    dsimp only
    rw [b64Index_b64Char _ (by omega), b64Index_b64Char _ (by omega)]
    dsimp only [Option.bind]
    rw [if_pos rfl, if_pos ⟨rfl, rfl⟩]
    simp only [Option.some.injEq, List.cons.injEq, and_true]
    omega
  | [a, b] => fun h => by
    have ha : a < 256 := h a (by simp)
    have hb : b < 256 := h b (by simp)
    rw [show b64Encode [a, b] =
      [b64Char (a / 4), b64Char (a % 4 * 16 + b / 16), b64Char (b % 16 * 4), '=' ] from rfl]
    rw [b64Decode.eq_def]
    dsimp only
    rw [b64Index_b64Char _ (by omega), b64Index_b64Char _ (by omega)]
    dsimp only [Option.bind]
    rw [if_neg (b64Char_ne_pad _ (by omega))]
    rw [b64Index_b64Char _ (by omega)]
    dsimp only [Option.bind]
    rw [if_pos rfl, if_pos rfl]
    simp only [Option.some.injEq, List.cons.injEq, and_true]
    constructor <;> omega
  | [a, b, c] => fun h => by
    have ha : a < 256 := h a (by simp)
    have hb : b < 256 := h b (by simp)
    have hc : c < 256 := h c (by simp)
    rw [show b64Encode [a, b, c] =
      [b64Char (a / 4), b64Char (a % 4 * 16 + b / 16), b64Char (b % 16 * 4 + c / 64),
        b64Char (c % 64)] from rfl]
    rw [b64Decode.eq_def]
    dsimp only
    rw [b64Index_b64Char _ (by omega), b64Index_b64Char _ (by omega)]
    dsimp only [Option.bind]
    rw [if_neg (b64Char_ne_pad _ (by omega))]
    rw [b64Index_b64Char _ (by omega)]
    dsimp only [Option.bind]
    rw [if_neg (b64Char_ne_pad _ (by omega))]
    rw [b64Index_b64Char _ (by omega)]
    dsimp only [Option.bind]
    rw [show b64Decode [] = some ([] : List Nat) from rfl]
    simp only [Option.map, Option.some.injEq, List.cons.injEq, and_true]
    refine ⟨by omega, by omega, by omega⟩
  | a :: b :: c :: d :: rest => fun h => by
    have ha : a < 256 := h a (by simp)
    have hb : b < 256 := h b (by simp)
    have hc : c < 256 := h c (by simp)
    have ih := b64_roundtrip (d :: rest) fun x hx => h x (by simp [hx])
    rw [show b64Encode (a :: b :: c :: d :: rest) =
      b64Char (a / 4) :: b64Char (a % 4 * 16 + b / 16) ::
        b64Char (b % 16 * 4 + c / 64) :: b64Char (c % 64) :: b64Encode (d :: rest) from rfl]
    rw [b64Decode.eq_def]
    dsimp only
    rw [b64Index_b64Char _ (by omega), b64Index_b64Char _ (by omega)]
    dsimp only [Option.bind]
    rw [if_neg (b64Char_ne_pad _ (by omega))]
    rw [b64Index_b64Char _ (by omega)]
    dsimp only [Option.bind]
    rw [if_neg (b64Char_ne_pad _ (by omega))]
    rw [b64Index_b64Char _ (by omega)]
    dsimp only [Option.bind]
    rw [ih]
    simp only [Option.map, Option.some.injEq, List.cons.injEq]
    refine ⟨by omega, by omega, by omega, trivial⟩

theorem jsonParse_jsonStringify (m : BillingMutationRequest) :
    jsonParse (jsonStringify m) = some m := by
  obtain ⟨p, bacc, en⟩ := m
  obtain ⟨pd⟩ := p
  unfold jsonStringify
  dsimp only
  rw [List.append_assoc]
  unfold jsonParse
  rw [dropLead_append]
  dsimp only
  rw [parseStrBody_escString]
  dsimp only
  rw [List.append_assoc]
  rw [dropLead_append]
  dsimp only
  cases bacc with
  | none =>
    cases en with
    | true =>
      rw [parseAcct_null]
      rw [show parseEnableTail (jEnableChunk ++
          ((if (true : Bool) = true then ( "true" ).data else ( "false" ).data) ++
            [ '\x7d' ])) = some true from by decide]
      rfl
    | false =>
      rw [parseAcct_null]
      rw [show parseEnableTail (jEnableChunk ++
          ((if (false : Bool) = true then ( "true" ).data else ( "false" ).data) ++
            [ '\x7d' ])) = some false from by decide]
      rfl
  | some b =>
    obtain ⟨bd⟩ := b
    simp only [List.cons_append, List.append_assoc, List.singleton_append, List.nil_append]
    cases en with
    | true =>
      rw [parseAcct_str]
      rw [show parseEnableTail (jEnableChunk ++
          ((if (true : Bool) = true then [ 't' , 'r' , 'u' , 'e' ]
            else [ 'f' , 'a' , 'l' , 's' , 'e' ]) ++
            [ '\x7d' ])) = some true from by decide]
      rfl
    | false =>
      rw [parseAcct_str]
      rw [show parseEnableTail (jEnableChunk ++
          ((if (false : Bool) = true then [ 't' , 'r' , 'u' , 'e' ]
            else [ 'f' , 'a' , 'l' , 's' , 'e' ]) ++
            [ '\x7d' ])) = some false from by decide]
      rfl

/--
C8: round-trip law of the payload encoding — for every
`BillingMutationRequest`, base64-decoding and JSON-parsing the
transport-encoded job body produced by the Job Registrar
(`Buffer.from(JSON.stringify(payload)).toString('base64')`) yields
exactly the original request.
-/
theorem claim_c8 (m : BillingMutationRequest) :
    decodePayload (encodePayload m) = some m := by
  unfold decodePayload encodePayload
  rw [show (⟨b64Encode (utf8Encode (jsonStringify m))⟩ : String).data =
    b64Encode (utf8Encode (jsonStringify m)) from rfl]
  rw [b64_roundtrip _ (utf8Encode_lt256 _)]
  dsimp only [Option.bind]
  rw [utf8Decode_utf8Encode]
  dsimp only [Option.bind]
  exact jsonParse_jsonStringify m

end GcpBilling
